import Mathlib

/-!
# SCuWl — Simple Custom Wordlist generator: a verification development

Shallow embedding of `scuwl.py` (package `scuwl_petebuffon`, main variant
`scuwl_petebuffon/scuwl.py`; older variant `src/scuwl_petebuffon/scuwl.py`
embedded where a claim refers to it), together with the pieces of external
behaviour the code relies on (CPython string primitives, CPython's
`urllib.robotparser`).

Python strings are modelled as Lean `String`s (sequences of Unicode code
points).  Unicode-table-dependent CPython primitives (`str.lower`,
single-character `str.isalpha`) are parameters of the embedding, bundled in
`PyStrSem`; everything that is fixed by the language definition
(`string.punctuation`, `str.isascii`, the whitespace table used by
`str.split()`) is modelled concretely.
-/

/-- The set of characters deleted by `str.translate(TRANS_TABLE)` where
`TRANS_TABLE = str.maketrans("", "", string.punctuation)`.
CPython's `string.punctuation` is exactly the ASCII characters with codes
33–47, 58–64, 91–96 and 123–126. -/
def isPunctuationChar (c : Char) : Bool :=
  (33 ≤ c.toNat && c.toNat ≤ 47) ||
  (58 ≤ c.toNat && c.toNat ≤ 64) ||
  (91 ≤ c.toNat && c.toNat ≤ 96) ||
  (123 ≤ c.toNat && c.toNat ≤ 126)

/-- `TRANS_TABLE` application: `s.translate(str.maketrans("", "", punctuation))`
deletes every ASCII punctuation character from `s`. -/
def pyTranslate (s : String) : String :=
  ⟨s.data.filter (fun c => !isPunctuationChar c)⟩

/-- The whitespace table of CPython's `str.split()` with no separator
argument (the characters for which `str.isspace` holds). -/
def pyIsSpace (c : Char) : Bool :=
  (9 ≤ c.toNat && c.toNat ≤ 13) ||
  (28 ≤ c.toNat && c.toNat ≤ 31) ||
  c.toNat == 32 || c.toNat == 133 || c.toNat == 160 ||
  c.toNat == 5760 ||
  (8192 ≤ c.toNat && c.toNat ≤ 8202) ||
  c.toNat == 8232 || c.toNat == 8233 ||
  c.toNat == 8239 || c.toNat == 8287 || c.toNat == 12288

/-- `str.isascii()`: every code point is below 128 (true for the empty
string). -/
def pyIsAscii (s : String) : Bool :=
  s.data.all (fun c => c.toNat < 128)

/-- Unicode-table-dependent CPython string primitives, parameters of the
embedding.  `lower` is `str.lower`; `isalphaChar` is the single-character
alphabetic test underlying `str.isalpha` (a Unicode letter test; on the
ASCII range it holds exactly for `A`–`Z`, `a`–`z`). -/
structure PyStrSem where
  lower : String → String
  isalphaChar : Char → Bool

/-- The ASCII fragment of the CPython primitives, used to instantiate the
embedding on concrete ASCII inputs, where it agrees with CPython exactly. -/
def asciiSem : PyStrSem where
  lower := fun s => ⟨s.data.map Char.toLower⟩
  isalphaChar := Char.isAlpha

/-- `str.isalpha()`: non-empty and every character alphabetic. -/
def pyIsAlpha (sem : PyStrSem) (s : String) : Bool :=
  !s.data.isEmpty && s.data.all sem.isalphaChar

/-- Accumulator worker for `pyWords`: `acc` holds the reversed characters
of the word currently being read. -/
def pyWordsAux : List Char → List Char → List String
  | [], acc => if acc.isEmpty then [] else [⟨acc.reverse⟩]
  | c :: cs, acc =>
    if pyIsSpace c then
      if acc.isEmpty then pyWordsAux cs []
      else ⟨acc.reverse⟩ :: pyWordsAux cs []
    else pyWordsAux cs (c :: acc)

/-- `str.split()` with no argument on a character list: maximal runs of
non-whitespace characters, with leading/trailing/repeated whitespace
producing no empty pieces. -/
def pyWords (cs : List Char) : List String := pyWordsAux cs []

/-- `str.split()` with no argument. -/
def pySplitWs (s : String) : List String := pyWords s.data

/-- The fields of the parsed CLI arguments record (`argparse` namespace)
that the scraper consults.  `min_length`/`max_length` are `int` CLI values.
`punctuation = True` means strip punctuation (the `-p` flag is
`store_false`).  `depth` is kept separately where needed. -/
structure Args where
  alpha : Bool
  min_length : Int
  max_length : Int
  punctuation : Bool
  tables : Bool

/-- `Scraper.filter_words` of the main variant (`scuwl_petebuffon/scuwl.py`
lines 132–140), verbatim branch structure:

    for tag in tags:
        for word in tag.split():
            if len(word) >= self.args.min_length and len(word) <= self.args.max_length:
                if self.args.alpha and word.isalpha():
                    yield word
                elif word.isascii():
                    yield word
-/
def filter_words (sem : PyStrSem) (args : Args) (tags : List String) : List String :=
  tags.flatMap (fun tag =>
    (pySplitWs tag).filter (fun word =>
      if args.min_length ≤ (word.data.length : Int) &&
          (word.data.length : Int) ≤ args.max_length then
        if args.alpha && pyIsAlpha sem word then true
        else pyIsAscii word
      else false))

/-- `Scraper.filter_words` of the older variant
(`src/scuwl_petebuffon/scuwl.py` lines 111–121), whose branch structure is

    if self.args.alpha:
        if word.isalpha(): yield word
    else:
        if word.isascii(): yield word
-/
def filter_words_v0 (sem : PyStrSem) (args : Args) (tags : List String) : List String :=
  tags.flatMap (fun tag =>
    (pySplitWs tag).filter (fun word =>
      if args.min_length ≤ (word.data.length : Int) &&
          (word.data.length : Int) ≤ args.max_length then
        if args.alpha then pyIsAlpha sem word
        else pyIsAscii word
      else false))

/-- `Scraper.extract_words` (main variant lines 88–95).  The parse
capability supplies the visible text nodes (`soup.find_all(string=
self.is_visible_tag)`) as a list of strings; the method lower-cases each,
strips punctuation when `args.punctuation` holds, and merges
`filter_words` output into the wordlist set. -/
def extract_words (sem : PyStrSem) (args : Args) (visibleTags : List String)
    (wordlist : Finset String) : Finset String :=
  let tags :=
    if args.punctuation then visibleTags.map (fun tag => pyTranslate (sem.lower tag))
    else visibleTags.map sem.lower
  wordlist ∪ (filter_words sem args tags).toFinset

/-- `Scraper.extract_tables` (main variant lines 118–125): identical
lower-case/translate/filter pipeline applied to the text content of every
table element. -/
def extract_tables (sem : PyStrSem) (args : Args) (tableTexts : List String)
    (wordlist : Finset String) : Finset String :=
  let text :=
    if args.punctuation then tableTexts.map (fun t => pyTranslate (sem.lower t))
    else tableTexts.map sem.lower
  wordlist ∪ (filter_words sem args text).toFinset

/-- Python's `in` operator on strings: contiguous substring containment. -/
def pyIn (needle hay : String) : Bool := decide (needle.data <:+: hay.data)

/-- Python's `str.endswith`. -/
def pyEndsWith (s suffix : String) : Bool := decide (suffix.data <:+ s.data)

/-- Python's `str.startswith`. -/
def pyStartsWith (s pre : String) : Bool := decide (pre.data <+: s.data)

/-- An anchor element as delivered by the parse capability
(`soup.find_all("a", href=True)`): its `href` attribute and its visible
text. -/
structure Anchor where
  href : String
  text : String

/-- The Python exception raised when a local variable is read before any
assignment to it has executed. -/
inductive PyExn where
  | unboundLocalError
deriving DecidableEq

/-- The ambient objects `Scraper.extract_links` reads: the parsed seed URL
(`self.url.scheme`, `self.url.netloc`), the client user-agent header, the
robots gate `can_fetch`, the `blake2b(·, digest_size=32).digest()` hash
(abstract codomain `H`), and `urllib.parse.urljoin`. -/
structure LinkCtx (H : Type) where
  scheme : String
  netloc : String
  userAgent : String
  canFetch : String → String → Bool
  blake2b : String → H
  urljoin : String → String → String

/-- The mutable state of one run of `Scraper.extract_links`: the visited
set `self.urls` of hash digests, the loop-local variable `url` (which in
Python persists across iterations and may be unbound, modelled `none`),
and the urls yielded so far. -/
structure LinksState (H : Type) where
  urls : Finset H
  urlVar : Option String
  yielded : List String

/-- One iteration of the `for link in links` loop of
`Scraper.extract_links` (main variant lines 97–116), verbatim:

    if link.text:
        if link["href"].endswith(".svg") or link["href"].endswith(".jpg"):
            continue
        if self.url.netloc in link["href"]:
            if link["href"].startswith("//"):
                url = urljoin((self.url.scheme + "://" + self.url.netloc), link["href"])
            else:
                url = link["href"]
        elif not link["href"].startswith("#"):
            url = urljoin((self.url.scheme + "://" + self.url.netloc), link["href"])
        if not self.robotparser.can_fetch(self.session.headers["user-agent"], url):
            continue
        _hash = blake2b(url.encode("utf8"), digest_size=32).digest()
        if _hash not in self.urls:
            self.urls.add(_hash)
            yield url

When neither branch assigns `url` and no earlier iteration did, reading
`url` raises `UnboundLocalError`. -/
def processLink {H : Type} [DecidableEq H] (ctx : LinkCtx H) (st : LinksState H)
    (a : Anchor) : Except PyExn (LinksState H) :=
  if a.text = "" then .ok st
  else if pyEndsWith a.href ".svg" || pyEndsWith a.href ".jpg" then .ok st
  else
    let urlVar :=
      if pyIn ctx.netloc a.href then
        if pyStartsWith a.href "//" then
          some (ctx.urljoin (ctx.scheme ++ "://" ++ ctx.netloc) a.href)
        else some a.href
      else if !pyStartsWith a.href "#" then
        some (ctx.urljoin (ctx.scheme ++ "://" ++ ctx.netloc) a.href)
      else st.urlVar
    match urlVar with
    | none => .error .unboundLocalError
    | some url =>
      if !ctx.canFetch ctx.userAgent url then
        .ok { st with urlVar := some url }
      else if ctx.blake2b url ∈ st.urls then
        .ok { st with urlVar := some url }
      else
        .ok { urls := insert (ctx.blake2b url) st.urls, urlVar := some url,
              yielded := st.yielded ++ [url] }

/-- `Scraper.extract_links` run to completion over a page's anchor list:
the loop iterations in order, aborting if an iteration raises. -/
def extract_links {H : Type} [DecidableEq H] (ctx : LinkCtx H)
    (st : LinksState H) (anchors : List Anchor) : Except PyExn (LinksState H) :=
  anchors.foldlM (processLink ctx) st

/-- The exceptions named in the `except` clause of `Scraper.fetch` (main
variant lines 68–69): `aiohttp.ClientError`, `UnicodeDecodeError`,
`AssertionError`, `asyncio.exceptions.TimeoutError`. -/
inductive AioExn where
  | clientError
  | unicodeDecodeError
  | assertionError
  | timeoutError
deriving DecidableEq

/-- The outcome of `self.session.get(url, proxy=...)` together with the
subsequent body read: either the request raises one of the exceptions
above, or it yields a response with an HTTP status, an optional
`Content-Type` header, and a body read (`await resp.text()`) that may
itself raise. -/
inductive GetResult where
  | exn (e : AioExn)
  | resp (status : Nat) (contentType : Option String) (textResult : Except AioExn String)

/-- The body of the `try` block in `Scraper.fetch` (main variant lines
60–67), with exceptions propagating.  `some body` models `return <body>`,
`some ""` models `return ""`, and `none` models Python's implicit
`return None` on the path where `status == 200` but the Content-Type is
present and does not contain `"text/html"` (no `return` statement is
reached). -/
def fetchTry (r : GetResult) : Except AioExn (Option String) :=
  match r with
  | .exn e => .error e
  | .resp status contentType textResult =>
    if status == 200 then
      let ct := contentType.getD ""
      if pyIn "text/html" ct || ct == "" then
        match textResult with
        | .ok body => .ok (some body)
        | .error e => .error e
      else .ok none
    else .ok (some "")

/-- `Scraper.fetch` (main variant lines 57–70): the `except` clause
catches every `AioExn` and turns it into `return ""`. -/
def fetch (r : GetResult) : Except AioExn (Option String) :=
  match fetchTry r with
  | .ok v => .ok v
  | .error _ => .ok (some "")

/-- Python truthiness test `not text` applied to a fetch result:  `None`
and `""` are falsy, which is the leaf condition of `recursive_scrape`. -/
def pyFalsy : Option String → Bool
  | none => true
  | some s => s == ""

/-- Outcome of `urllib.request.urlopen(<robots url>)` inside
`urllib.robotparser.RobotFileParser.read`: a successful fetch (whose
parsed ruleset we keep abstractly as the allow/deny decision function it
induces), an `HTTPError` with a status code, or a network-level
`URLError` that is not an `HTTPError`. -/
inductive RobotsFetch where
  | ok (ruleDecision : String → String → Bool)
  | httpError (code : Nat)
  | urlError

/-- The network-level `urllib.error.URLError` (not an `HTTPError`). -/
inductive UrlError where
  | urlError
deriving DecidableEq

/-- State of CPython's `urllib.robotparser.RobotFileParser` (stdlib,
modelled here because `scuwl.py` delegates the politeness gate to it):
the robots URL, the `disallow_all`/`allow_all` flags, whether
`last_checked` has been set (it is set by `parse`, hence exactly on a
successful read), and the decision function of the parsed entries. -/
structure RobotFileParser where
  url : String
  disallow_all : Bool
  allow_all : Bool
  lastChecked : Bool
  ruleDecision : String → String → Bool

/-- A freshly constructed `RobotFileParser()`. -/
def RobotFileParser.init : RobotFileParser :=
  ⟨"", false, false, false, fun _ _ => false⟩

/-- `RobotFileParser.set_url`. -/
def RobotFileParser.set_url (rp : RobotFileParser) (u : String) : RobotFileParser :=
  { rp with url := u }

/-- CPython's `RobotFileParser.read`:

    try:
        f = urllib.request.urlopen(self.url)
    except urllib.error.HTTPError as err:
        if err.code in (401, 403): self.disallow_all = True
        elif err.code >= 400 and err.code < 500: self.allow_all = True
    else:
        raw = f.read()
        self.parse(raw.decode("utf-8").splitlines())

Only `HTTPError` is caught: a plain network `URLError` propagates to the
caller.  `parse` sets `last_checked` (via `modified()`). -/
def RobotFileParser.read (rp : RobotFileParser) (outcome : RobotsFetch) :
    Except UrlError RobotFileParser :=
  match outcome with
  | .urlError => .error .urlError
  | .httpError code =>
    if code == 401 || code == 403 then .ok { rp with disallow_all := true }
    else if 400 ≤ code && code < 500 then .ok { rp with allow_all := true }
    else .ok rp
  | .ok ruleDecision => .ok { rp with lastChecked := true, ruleDecision := ruleDecision }

/-- CPython's `RobotFileParser.can_fetch`:

    if self.disallow_all: return False
    if self.allow_all: return True
    if not self.last_checked: return False
    ... (consult parsed entries)
-/
def RobotFileParser.can_fetch (rp : RobotFileParser) (useragent url : String) : Bool :=
  if rp.disallow_all then false
  else if rp.allow_all then true
  else if !rp.lastChecked then false
  else rp.ruleDecision useragent url

/-- `build_robotparser` (main variant lines 151–156):

    robotparser = urllib.robotparser.RobotFileParser()
    robotparser.set_url("https://" + netloc + "/robots.txt")
    robotparser.read()

The scheme is the literal string `"https"`; `read`'s network outcome is
the `outcome` argument. -/
def build_robotparser (netloc : String) (outcome : RobotsFetch) :
    Except UrlError RobotFileParser :=
  (RobotFileParser.init.set_url ("https://" ++ netloc ++ "/robots.txt")).read outcome

/-- The result fields of `urllib.parse.urlparse` that the scraper uses. -/
structure UrlParts where
  scheme : String
  netloc : String

/-- Split `l` around the first occurrence of the separator `sep`,
returning the parts before and after it, or `none` when `sep` does not
occur. -/
def findSub (sep : List Char) : List Char → Option (List Char × List Char)
  | [] => if sep.isEmpty then some ([], []) else none
  | c :: cs =>
    if sep.isPrefixOf (c :: cs) then some ([], (c :: cs).drop sep.length)
    else
      match findSub sep cs with
      | some (pre, post) => some (c :: pre, post)
      | none => none

/-- The `scheme` and `netloc` fields of `urllib.parse.urlparse` for
absolute `scheme://host/...`-shaped URLs (the shapes relevant here): the
scheme is the text before the first `"://"` and the netloc runs from
there to the next `/`.  Inputs without a `//`-authority get empty scheme
and netloc, as in CPython. -/
def urlparse (s : String) : UrlParts :=
  match findSub [':', '/', '/'] s.data with
  | none => ⟨"", ""⟩
  | some (pre, post) => ⟨⟨pre⟩, ⟨post.takeWhile (fun c => c != '/')⟩⟩

/-- The robots URL that `Scraper.__init__` causes `set_url` to receive:
`self.url = urlparse(args.url)` followed by
`build_robotparser(self.url.netloc)`. -/
def scraperRobotsUrl (seedUrl : String) : String :=
  "https://" ++ (urlparse seedUrl).netloc ++ "/robots.txt"

/-- The environment of one crawl: the HTTP transport (what
`Scraper.fetch`'s `session.get` observes for each URL), the parse
capability restricted to anchor extraction (`BeautifulSoup(text,
"lxml").find_all("a", href=True)`), the ambient link context, the seed
URL, and `args.depth`.  `maxDepth : Nat` carries the configuration
invariant `depth ≥ 0`. -/
structure CrawlEnv (H : Type) where
  web : String → GetResult
  pageAnchors : String → List Anchor
  ctx : LinkCtx H
  seed : String
  maxDepth : Nat

/-- The value `text = await self.fetch(url)` takes in `recursive_scrape`
(the `.error` case is unreachable, see `fetch_never_raises`). -/
def fetchedText {H : Type} (env : CrawlEnv H) (u : String) : Option String :=
  match fetch (env.web u) with
  | .ok v => v
  | .error _ => none

/-- The crawl tasks `recursive_scrape` can create (main variant lines
72–86).  `generate_wordlist` starts the root task at the seed URL with
depth 0; a running task at `(u, d)` spawns `(link, d + 1)` exactly when
its fetch returned truthy text, `d != self.args.depth`, and
`extract_links` yields `link` while scanning the page's anchors — the
yield happening from whatever visited-set state `st` the concurrent crawl
has reached.  -/
inductive Spawned {H : Type} [DecidableEq H] (env : CrawlEnv H) : String → Nat → Prop
  | root : Spawned env env.seed 0
  | child {u : String} {d : Nat} {t : String} {a : Anchor}
      {st st' : LinksState H} {link : String} :
      Spawned env u d →
      fetchedText env u = some t →
      t ≠ "" →
      d ≠ env.maxDepth →
      a ∈ env.pageAnchors t →
      processLink env.ctx st a = .ok st' →
      st'.yielded = st.yielded ++ [link] →
      Spawned env link (d + 1)

/-- `generate_wordlist` line 188: `scraper.wordlist = sorted(scraper.wordlist)`.
Python's `sorted` on a set of strings returns the distinct elements in
increasing lexicographic (code-point) order, which is Lean's linear order
on `String`. -/
def sortedWordlist (wordlist : Finset String) : List String :=
  wordlist.sort (· ≤ ·)

/-- The emitted lines: `write_to_file` writes `f"{word}\n"` for each word
of the (by then sorted) wordlist; the stdout branch prints each word on
its own line.  Both emit one token per line in the order of
`sortedWordlist`. -/
def emittedLines (wordlist : Finset String) : List String :=
  (sortedWordlist wordlist).map (fun word => word ++ "\n")

example : pySplitWs "  hello,  world " = ["hello,", "world"] := by decide

example :
    filter_words asciiSem ⟨true, 3, 20, true, false⟩ ["ab1 hello x"] =
      ["ab1", "hello"] := by decide

example :
    filter_words_v0 asciiSem ⟨true, 3, 20, true, false⟩ ["ab1 hello x"] =
      ["hello"] := by decide

/-! ## Helper lemmas -/

/-- Every character of every word `pyWordsAux` produces comes from the
remaining input or from the accumulator. -/
theorem pyWordsAux_chars (cs : List Char) :
    ∀ acc w, w ∈ pyWordsAux cs acc → ∀ c ∈ w.data, c ∈ cs ∨ c ∈ acc := by
  induction cs with
  | nil =>
    intro acc w hw c hc
    simp only [pyWordsAux] at hw
    split at hw
    · simp at hw
    · simp only [List.mem_singleton] at hw
      subst hw
      right
      simpa using hc
  | cons x xs ih =>
    intro acc w hw c hc
    simp only [pyWordsAux] at hw
    split at hw
    · split at hw
      · rcases ih [] w hw c hc with h | h
        · exact Or.inl (List.mem_cons_of_mem _ h)
        · simp at h
      · rcases List.mem_cons.1 hw with rfl | hw'
        · right
          simpa using hc
        · rcases ih [] w hw' c hc with h | h
          · exact Or.inl (List.mem_cons_of_mem _ h)
          · simp at h
    · rcases ih (x :: acc) w hw c hc with h | h
      · exact Or.inl (List.mem_cons_of_mem _ h)
      · rcases List.mem_cons.1 h with rfl | h'
        · exact Or.inl (List.mem_cons_self _ _)
        · exact Or.inr h'

/-- Every character of every word of `str.split()` occurs in the split
string. -/
theorem pyWords_chars {cs : List Char} {w : String} (hw : w ∈ pyWords cs) :
    ∀ c ∈ w.data, c ∈ cs := by
  intro c hc
  rcases pyWordsAux_chars cs [] w hw c hc with h | h
  · exact h
  · simp at h

/-- Membership in `filter_words` output: the word is a word of one of the
tags and the filter predicate accepted it. -/
theorem mem_filter_words {sem : PyStrSem} {args : Args} {tags : List String}
    {w : String} (hw : w ∈ filter_words sem args tags) :
    ∃ tag ∈ tags, w ∈ pySplitWs tag ∧
      (args.min_length ≤ (w.data.length : Int) ∧ (w.data.length : Int) ≤ args.max_length) := by
  rcases List.mem_flatMap.1 hw with ⟨tag, htag, hmem⟩
  rcases List.mem_filter.1 hmem with ⟨hsplit, hpred⟩
  refine ⟨tag, htag, hsplit, ?_⟩
  split at hpred
  · next hcond =>
    have := hcond
    simp only [Bool.and_eq_true, decide_eq_true_eq] at this
    exact this
  · exact absurd hpred (by simp)

/-- `fetch` catches every exception the transport can raise: it never
propagates an error. -/
theorem fetch_never_raises (r : GetResult) : ∃ v, fetch r = .ok v := by
  unfold fetch
  cases h : fetchTry r with
  | ok v => exact ⟨v, rfl⟩
  | error e => exact ⟨some "", rfl⟩

/-! ## Claims -/

/-- C1: In alphabetic-only mode every token yielded by `filter_words`
passes the implementation's alphabetic test.  REFUTED on the main
variant: with `alpha=True`, `min_length=3`, `max_length=20`, the token
`"ab1"` fails `word.isalpha()` but is still yielded through the
`elif word.isascii()` branch, contradicting the `-a` flag's documented
behaviour ("extract words with alphabet characters only"); the older
variant's `filter_words` correctly excludes it. -/
theorem alpha_mode_yields_nonalpha_word :
    "ab1" ∈ filter_words asciiSem ⟨true, 3, 20, true, false⟩ ["ab1"] ∧
    pyIsAlpha asciiSem "ab1" = false ∧
    pyIsAscii "ab1" = true ∧
    "ab1" ∉ filter_words_v0 asciiSem ⟨true, 3, 20, true, false⟩ ["ab1"] := by
  refine ⟨by decide, by decide, by decide, by decide⟩

/-- C7: every token yielded by `filter_words` has length within
`[min_length, max_length]` inclusive, for every configuration and every
input. -/
theorem filter_words_length_bounds (sem : PyStrSem) (args : Args)
    (tags : List String) (w : String) (hw : w ∈ filter_words sem args tags) :
    args.min_length ≤ (w.data.length : Int) ∧ (w.data.length : Int) ≤ args.max_length := by
  rcases mem_filter_words hw with ⟨_, _, _, hlen⟩
  exact hlen

/-- Concrete instance of `filter_words_length_bounds`. -/
theorem filter_words_length_bounds_witness :
    ("hello" ∈ filter_words asciiSem ⟨false, 3, 20, true, false⟩ ["hello"]) ∧
    ((3 : Int) ≤ ("hello".data.length : Int) ∧ (("hello".data.length : Int) ≤ 20)) :=
  ⟨by decide, filter_words_length_bounds asciiSem ⟨false, 3, 20, true, false⟩ ["hello"] "hello" (by decide)⟩

/-- C9: the final output is the accumulated token set sorted
lexicographically: the emitted sequence is strictly increasing, contains
each token of the set exactly once (and nothing else), and both the
stdout writer and the file writer emit that sequence one token per
line. -/
theorem wordlist_output_sorted_nodup (wordlist : Finset String) :
    List.Sorted (· < ·) (sortedWordlist wordlist) ∧
    (∀ w : String, List.count w (sortedWordlist wordlist) =
      if w ∈ wordlist then 1 else 0) ∧
    emittedLines wordlist = (sortedWordlist wordlist).map (fun word => word ++ "\n") := by
  refine ⟨Finset.sort_sorted_lt wordlist, ?_, rfl⟩
  intro w
  by_cases hw : w ∈ wordlist
  · rw [if_pos hw]
    exact List.count_eq_one_of_mem (Finset.sort_nodup _ _) ((Finset.mem_sort _).2 hw)
  · rw [if_neg hw]
    exact List.count_eq_zero_of_not_mem (fun hmem => hw ((Finset.mem_sort _).1 hmem))

/-- Words filtered out of punctuation-stripped tags contain no ASCII
punctuation character: the `translate` step removed them all before the
whitespace split. -/
theorem filter_words_translate_no_punct (sem : PyStrSem) (args : Args)
    (ts : List String) (w : String)
    (hw : w ∈ filter_words sem args (ts.map (fun t => pyTranslate (sem.lower t)))) :
    ∀ c ∈ w.data, isPunctuationChar c = false := by
  intro c hc
  rcases List.mem_flatMap.1 hw with ⟨tag, htag, hmem⟩
  rcases List.mem_map.1 htag with ⟨t, _, rfl⟩
  have hsplit : w ∈ pySplitWs (pyTranslate (sem.lower t)) := (List.mem_filter.1 hmem).1
  have hchar : c ∈ (pyTranslate (sem.lower t)).data := pyWords_chars hsplit c hc
  have : c ∈ (sem.lower t).data.filter (fun c => !isPunctuationChar c) := hchar
  have := (List.mem_filter.1 this).2
  simpa using this

/-- C8: when punctuation-stripping is enabled, no token produced by
`extract_words` or `extract_tables` contains any ASCII punctuation
character (the text is lower-cased and punctuation-stripped before the
whitespace split, in both default and table-only modes). -/
theorem punctuation_stripped_no_punct (sem : PyStrSem) (args : Args)
    (hp : args.punctuation = true) (texts : List String) (wordlist : Finset String)
    (hwl : ∀ w ∈ wordlist, ∀ c ∈ w.data, isPunctuationChar c = false) :
    (∀ w ∈ extract_words sem args texts wordlist, ∀ c ∈ w.data, isPunctuationChar c = false) ∧
    (∀ w ∈ extract_tables sem args texts wordlist, ∀ c ∈ w.data, isPunctuationChar c = false) := by
  constructor <;>
  · intro w hw c hc
    simp only [extract_words, extract_tables, hp, if_true, Finset.mem_union,
      List.mem_toFinset] at hw
    rcases hw with hw | hw
    · exact hwl w hw c hc
    · exact filter_words_translate_no_punct sem args texts w hw c hc

/-- Concrete instance of `punctuation_stripped_no_punct`. -/
theorem punctuation_stripped_no_punct_witness :
    ("hello" ∈ extract_words asciiSem ⟨false, 3, 20, true, false⟩ ["Hello, World!"] ∅) ∧
    isPunctuationChar 'h' = false :=
  ⟨by decide,
   (punctuation_stripped_no_punct asciiSem ⟨false, 3, 20, true, false⟩ rfl
      ["Hello, World!"] ∅ (by simp)).1 "hello" (by decide) 'h' (by decide)⟩

/-- C3: every crawl task has depth at most `args.depth`; every non-root
task was spawned by a parent at exactly one less depth, and that parent's
depth was strictly below `args.depth` — so a task whose depth equals the
configured max depth spawns nothing and no fetch happens beyond it. -/
theorem spawned_depth_invariant {H : Type} [DecidableEq H] (env : CrawlEnv H) :
    (∀ u d, Spawned env u d → d ≤ env.maxDepth) ∧
    (∀ u d, Spawned env u d → (u = env.seed ∧ d = 0) ∨
      ∃ p dp, Spawned env p dp ∧ d = dp + 1 ∧ dp < env.maxDepth) := by
  have hdepth : ∀ u d, Spawned env u d → d ≤ env.maxDepth := by
    intro u d h
    induction h with
    | root => exact Nat.zero_le _
    | child hs hf ht hd ha hp hy ih => exact Nat.succ_le_of_lt (Nat.lt_of_le_of_ne ih hd)
  refine ⟨hdepth, ?_⟩
  intro u d h
  cases h with
  | root => exact Or.inl ⟨rfl, rfl⟩
  | child hs hf ht hd ha hp hy =>
    exact Or.inr ⟨_, _, hs, rfl, Nat.lt_of_le_of_ne (hdepth _ _ hs) hd⟩

/-- A concrete crawl environment for witnesses. -/
def envEx : CrawlEnv String where
  web := fun _ => .resp 200 none (.ok "page")
  pageAnchors := fun _ => []
  ctx := ⟨"https", "example.com", "scuwl", fun _ _ => true, fun u => u, fun _ h => h⟩
  seed := "https://example.com/"
  maxDepth := 1

/-- Concrete instance of `spawned_depth_invariant` at the root task. -/
theorem spawned_depth_invariant_witness :
    (0 ≤ envEx.maxDepth) ∧
    ((envEx.seed = envEx.seed ∧ 0 = 0) ∨
      ∃ p dp, Spawned envEx p dp ∧ 0 = dp + 1 ∧ dp < envEx.maxDepth) :=
  ⟨(spawned_depth_invariant envEx).1 envEx.seed 0 Spawned.root,
   (spawned_depth_invariant envEx).2 envEx.seed 0 Spawned.root⟩

/-- The visited set `self.urls` never shrinks across a loop iteration of
`extract_links`. -/
theorem processLink_urls_mono {H : Type} [DecidableEq H] (ctx : LinkCtx H)
    (st st' : LinksState H) (a : Anchor) (h : processLink ctx st a = .ok st') :
    st.urls ⊆ st'.urls := by
  simp only [processLink] at h
  split at h
  · cases Except.ok.inj h; exact Finset.Subset.refl _
  · split at h
    · cases Except.ok.inj h; exact Finset.Subset.refl _
    · split at h
      · exact absurd h (by simp)
      · split at h
        · cases Except.ok.inj h; exact Finset.Subset.refl _
        · split at h
          · cases Except.ok.inj h; exact Finset.Subset.refl _
          · cases Except.ok.inj h; exact Finset.subset_insert _ _

/-- C4: deduplication is idempotent.  For an anchor carrying visible text
whose `href` is an absolute same-origin URL (so the resolved URL is the
`href` itself), permitted by the gate and not yet fingerprinted: the
first pass yields the URL and inserts its hash; any later pass in a state
already containing the hash yields nothing and leaves the visited set
unchanged; and no iteration ever shrinks the visited set. -/
theorem extract_links_dedup_idempotent {H : Type} [DecidableEq H] (ctx : LinkCtx H)
    (st : LinksState H) (a : Anchor)
    (htext : a.text ≠ "")
    (hext : (pyEndsWith a.href ".svg" || pyEndsWith a.href ".jpg") = false)
    (hnet : pyIn ctx.netloc a.href = true)
    (hproto : pyStartsWith a.href "//" = false)
    (hgate : ctx.canFetch ctx.userAgent a.href = true)
    (hnew : ctx.blake2b a.href ∉ st.urls) :
    processLink ctx st a =
      .ok ⟨insert (ctx.blake2b a.href) st.urls, some a.href, st.yielded ++ [a.href]⟩ ∧
    st.urls ⊆ insert (ctx.blake2b a.href) st.urls ∧
    (∀ st₂ : LinksState H, ctx.blake2b a.href ∈ st₂.urls →
      processLink ctx st₂ a = .ok { st₂ with urlVar := some a.href }) ∧
    (∀ st' st'' : LinksState H, processLink ctx st' a = .ok st'' → st'.urls ⊆ st''.urls) := by
  refine ⟨?_, Finset.subset_insert _ _, ?_, fun st' st'' h => processLink_urls_mono ctx st' st'' a h⟩
  · simp [processLink, htext, hext, hnet, hproto, hgate, hnew]
  · intro st₂ hmem
    simp [processLink, htext, hext, hnet, hproto, hgate, hmem]

/-- A concrete link context (hash modelled as the identity on strings)
for witnesses. -/
def ctxEx : LinkCtx String :=
  ⟨"https", "example.com", "scuwl", fun _ _ => true, fun u => u, fun _ h => h⟩

/-- Concrete instance of `extract_links_dedup_idempotent`. -/
theorem extract_links_dedup_idempotent_witness :
    processLink ctxEx ⟨(∅ : Finset String), none, []⟩ ⟨"https://example.com/a", "link"⟩ =
      .ok ⟨insert (ctxEx.blake2b "https://example.com/a") (∅ : Finset String),
           some "https://example.com/a", [] ++ ["https://example.com/a"]⟩ ∧
    (∅ : Finset String) ⊆ insert (ctxEx.blake2b "https://example.com/a") (∅ : Finset String) ∧
    (∀ st₂ : LinksState String, ctxEx.blake2b "https://example.com/a" ∈ st₂.urls →
      processLink ctxEx st₂ ⟨"https://example.com/a", "link"⟩ =
        .ok { st₂ with urlVar := some "https://example.com/a" }) ∧
    (∀ st' st'' : LinksState String,
      processLink ctxEx st' ⟨"https://example.com/a", "link"⟩ = .ok st'' →
      st'.urls ⊆ st''.urls) :=
  extract_links_dedup_idempotent ctxEx ⟨∅, none, []⟩ ⟨"https://example.com/a", "link"⟩
    (by decide) (by decide) (by decide) (by decide) rfl (by simp)

/-- C10: an anchor with non-empty visible text whose `href` starts with
`"#"` and does not contain the origin host assigns nothing to the loop
variable `url`: if no earlier iteration assigned it, the politeness check
reads an unbound local and the iteration raises; otherwise the stale
previous URL is re-checked against the gate and the visited set in place
of the fragment link. -/
theorem fragment_link_unbound_url {H : Type} [DecidableEq H] (ctx : LinkCtx H)
    (st : LinksState H) (a : Anchor)
    (htext : a.text ≠ "")
    (hext : (pyEndsWith a.href ".svg" || pyEndsWith a.href ".jpg") = false)
    (hnet : pyIn ctx.netloc a.href = false)
    (hfrag : pyStartsWith a.href "#" = true) :
    (st.urlVar = none → processLink ctx st a = .error .unboundLocalError) ∧
    (∀ u, st.urlVar = some u →
      processLink ctx st a =
        (if !ctx.canFetch ctx.userAgent u then .ok { st with urlVar := some u }
         else if ctx.blake2b u ∈ st.urls then .ok { st with urlVar := some u }
         else .ok ⟨insert (ctx.blake2b u) st.urls, some u, st.yielded ++ [u]⟩)) := by
  constructor
  · intro h
    simp [processLink, htext, hext, hnet, hfrag, h]
  · intro u h
    simp [processLink, htext, hext, hnet, hfrag, h]

/-- Concrete instance of `fragment_link_unbound_url`: the first
fragment-only anchor on a page raises. -/
theorem fragment_link_unbound_url_witness :
    processLink ctxEx ⟨(∅ : Finset String), none, []⟩ ⟨"#top", "x"⟩ =
      .error PyExn.unboundLocalError :=
  (fragment_link_unbound_url ctxEx ⟨∅, none, []⟩ ⟨"#top", "x"⟩ (by decide) (by decide)
    (by decide) (by decide)).1 rfl

/-- C5 counterexample: on a 200 response whose `Content-Type` is present
and does not contain `"text/html"`, no branch of `Scraper.fetch` reaches
a `return` statement, so the coroutine returns Python `None`, not the
empty string the claim asserts. -/
theorem fetch_non_html_returns_none :
    fetch (.resp 200 (some "image/png") (.ok "<html></html>")) = .ok none ∧
    (Except.ok (none : Option String) : Except AioExn (Option String)) ≠ .ok (some "") := by
  constructor
  · rfl
  · simp

/-- C5 (amended): `fetch` never propagates an error; every transport
exception named in its `except` clause and every non-200 status yields
`""`; a decode failure on a 200 text/html-ish response yields `""`
(falsy); a 200 response with a non-text/html Content-Type yields `None`
(also falsy).  In each case `recursive_scrape`'s `if not text` leaf check
fires and the task terminates without aborting the crawl. -/
theorem fetch_error_isolation :
    (∀ r, ∃ v, fetch r = .ok v) ∧
    (∀ e, fetch (.exn e) = .ok (some "")) ∧
    (∀ status ct tr, status ≠ 200 → fetch (.resp status ct tr) = .ok (some "")) ∧
    (∀ ct e, ∃ v, fetch (.resp 200 ct (.error e)) = .ok v ∧ pyFalsy v = true) ∧
    (∀ c tr, pyIn "text/html" c = false → c ≠ "" →
      fetch (.resp 200 (some c) tr) = .ok none ∧ pyFalsy none = true) := by
  refine ⟨fetch_never_raises, fun e => rfl, ?_, ?_, ?_⟩
  · intro status ct tr h
    have hb : (status == 200) = false := by simpa using h
    simp [fetch, fetchTry, hb]
  · intro ct e
    by_cases hct : (pyIn "text/html" (ct.getD "") || (ct.getD "" == "")) = true
    · refine ⟨some "", ?_, rfl⟩
      simp [fetch, fetchTry, hct]
    · refine ⟨none, ?_, rfl⟩
      simp only [Bool.not_eq_true] at hct
      simp [fetch, fetchTry, hct]
  · intro c tr h1 h2
    have hb : (c == "") = false := by simpa using h2
    refine ⟨?_, rfl⟩
    simp [fetch, fetchTry, h1, hb]

/-- Concrete instance of `fetch_error_isolation`: a 404 yields the empty
string. -/
theorem fetch_error_isolation_witness :
    fetch (.resp 404 none (.ok "body")) = .ok (some "") :=
  fetch_error_isolation.2.2.1 404 none (.ok "body") (by decide)

/-- C2 counterexample: a network-level `URLError` (the robots host being
unreachable) is not caught by `RobotFileParser.read`, so
`build_robotparser` — and with it `Scraper.__init__` and the whole
crawl — fails instead of failing open. -/
theorem robots_network_error_propagates :
    build_robotparser "example.com" RobotsFetch.urlError = .error UrlError.urlError := rfl

/-- C2 (amended): if the robots resource answers with an HTTP error whose
code is in `[400, 500)` and is neither 401 nor 403 — in particular 404 —
construction of the gate succeeds with `allow_all` set and `can_fetch`
subsequently returns `True` for every user-agent and URL. -/
theorem robots_fail_open_on_4xx (netloc : String) (code : Nat)
    (h4 : 400 ≤ code) (h5 : code < 500) (h401 : code ≠ 401) (h403 : code ≠ 403) :
    ∃ rp, build_robotparser netloc (.httpError code) = .ok rp ∧
      ∀ ua url, rp.can_fetch ua url = true := by
  have hbr : (code == 401 || code == 403) = false := by
    simp only [Bool.or_eq_false_iff, beq_eq_false_iff_ne, ne_eq]
    exact ⟨h401, h403⟩
  have hrange : (decide (400 ≤ code) && decide (code < 500)) = true := by
    simp [h4, h5]
  refine ⟨{ RobotFileParser.init.set_url ("https://" ++ netloc ++ "/robots.txt") with
      allow_all := true }, ?_, fun ua url => rfl⟩
  simp [build_robotparser, RobotFileParser.read, RobotFileParser.set_url,
    RobotFileParser.init, hbr, hrange]

/-- Concrete instance of `robots_fail_open_on_4xx` at a 404. -/
theorem robots_fail_open_on_4xx_witness :
    ∃ rp, build_robotparser "example.com" (.httpError 404) = .ok rp ∧
      ∀ ua url, rp.can_fetch ua url = true :=
  robots_fail_open_on_4xx "example.com" 404 (by decide) (by decide) (by decide) (by decide)

/-- C6 counterexample: for the seed `http://example.com/index.html` the
seed scheme is `http`, yet the robots resource URL the scraper builds is
`https://example.com/robots.txt`, not
`<seed scheme>://example.com/robots.txt`. -/
theorem robots_url_ignores_seed_scheme :
    (urlparse "http://example.com/index.html").scheme = "http" ∧
    scraperRobotsUrl "http://example.com/index.html" = "https://example.com/robots.txt" ∧
    scraperRobotsUrl "http://example.com/index.html" ≠
      (urlparse "http://example.com/index.html").scheme ++ "://example.com/robots.txt" := by
  refine ⟨by decide, by decide, by decide⟩

/-- C6 (amended): the politeness-gate resource URL is built from the
seed's host as `https://<host>/robots.txt`, with the scheme fixed to the
literal `https` regardless of the seed URL's scheme. -/
theorem robots_url_uses_https_and_host (netloc : String) (outcome : RobotsFetch)
    (rp : RobotFileParser) (h : build_robotparser netloc outcome = .ok rp) :
    rp.url = "https://" ++ netloc ++ "/robots.txt" := by
  cases outcome with
  | urlError => exact absurd h (by simp [build_robotparser, RobotFileParser.read])
  | httpError code =>
    simp only [build_robotparser, RobotFileParser.read] at h
    split at h
    · cases Except.ok.inj h; rfl
    · split at h
      · cases Except.ok.inj h; rfl
      · cases Except.ok.inj h; rfl
  | ok f =>
    simp only [build_robotparser, RobotFileParser.read] at h
    cases Except.ok.inj h; rfl

/-- Concrete instance of `robots_url_uses_https_and_host`. -/
theorem robots_url_uses_https_and_host_witness :
    ∃ rp, build_robotparser "example.com" (.ok (fun _ _ => false)) = .ok rp ∧
      rp.url = "https://" ++ "example.com" ++ "/robots.txt" :=
  ⟨_, rfl, robots_url_uses_https_and_host "example.com" (.ok (fun _ _ => false)) _ rfl⟩
